import Mathlib

/-!
Verification of the semantic-search and structured-extraction core of the
rickandmorty-be service.  JavaScript strings are modelled as lists of Unicode
scalar values, JSON values as an inductive type, and every JavaScript
operation used by the core (trim, split, substring, regex matching,
JSON.parse, object literals with duplicate keys) is given an executable
Lean model that follows the ECMAScript semantics of the construct.
External capabilities (the generation model, the embedding model, the
vector datastore's distance operator) are taken as parameters, exactly as
the source treats them as external calls.
-/

namespace RM

/-- JavaScript strings, modelled as lists of Unicode scalar values. -/
abbrev Str := List Char

/-- Coerce a Lean string literal to the model of JS strings. -/
def chars (s : String) : Str := s.data

/-- The whitespace class used by JS `trim` and by `\s` in regexes:
space, tab, LF, CR, VT, FF, NBSP, BOM. -/
def jsIsWs (c : Char) : Bool :=
  c == ' ' || c == '\t' || c == '\n' || c == '\r' ||
  c == Char.ofNat 11 || c == Char.ofNat 12 ||
  c == Char.ofNat 160 || c == Char.ofNat 65279

/-- Model of `String.prototype.trim`: drop whitespace at both ends. -/
def jsTrim (l : Str) : Str :=
  ((l.dropWhile jsIsWs).reverse.dropWhile jsIsWs).reverse

/-- Model of `str.substring(a, b)`: clamp both indices to `[0, length]`,
swap when out of order, and take the characters in `[min, max)`. -/
def jsSubstring (l : Str) (a b : Nat) : Str :=
  let a' := min a l.length
  let b' := min b l.length
  ((l.take (max a' b')).drop (min a' b'))

/-- Model of one-argument `str.substring(a)`: from `a` to the end. -/
def jsSubstringFrom (l : Str) (a : Nat) : Str :=
  l.drop a

/-- Left brace character, kept out of string literals. -/
def lbrace : Char := Char.ofNat 123

/-- Right brace character. -/
def rbrace : Char := Char.ofNat 125

/-- JavaScript/JSON values.  Numbers are modelled as rationals: none of the
verified properties depends on binary floating-point rounding. -/
inductive JsVal where
  | null
  | bool (b : Bool)
  | num (q : Rat)
  | str (s : Str)
  | arr (elems : List JsVal)
  | obj (entries : List (Str × JsVal))
deriving Repr

/-- First-match lookup in an entry list (entry lists built by `mkObj`
have unique keys, as JS objects do). -/
def getEntry (es : List (Str × JsVal)) (k : Str) : Option JsVal :=
  match es with
  | [] => none
  | (k', v) :: rest => if k' = k then some v else getEntry rest k

/-- JS property write on an entry list: update the existing slot for the
key if present (keeping its position), otherwise append a new entry. -/
def setEntry (es : List (Str × JsVal)) (k : Str) (v : JsVal) : List (Str × JsVal) :=
  if es.any (fun p => decide (p.1 = k)) then
    es.map (fun p => if p.1 = k then (k, v) else p)
  else es ++ [(k, v)]

/-- JS property read `v[k]`: `undefined` (`none`) on non-objects. -/
def jsGet (v : JsVal) (k : Str) : Option JsVal :=
  match v with
  | .obj es => getEntry es k
  | _ => none

/-- JS property write `v[k] = x`: a silent no-op on non-objects
(the non-strict-mode behaviour of writing to a primitive). -/
def jsSet (v : JsVal) (k : Str) (x : JsVal) : JsVal :=
  match v with
  | .obj es => .obj (setEntry es k x)
  | _ => v

/-- Evaluation of a JS object literal: properties are installed in order,
so a duplicated key keeps its first position but takes its last value. -/
def mkObj (l : List (Str × JsVal)) : JsVal :=
  l.foldl (fun acc p => jsSet acc p.1 p.2) (.obj [])

/-- JS truthiness. -/
def truthy : JsVal → Bool
  | .null => false
  | .bool b => b
  | .num q => q != 0
  | .str s => !s.isEmpty
  | .arr _ => true
  | .obj _ => true

/-- Model of `a || d` applied to a possibly-absent property value. -/
def orDefault (o : Option JsVal) (d : JsVal) : JsVal :=
  match o with
  | some v => if truthy v then v else d
  | none => d

/-! ### A model of `JSON.parse`

A fueled recursive-descent parser for the JSON grammar; `none` is the model
of `JSON.parse` throwing a `SyntaxError`. -/

/-- Skip JSON insignificant whitespace. -/
def skipWs (l : Str) : Str := l.dropWhile (fun c => c == ' ' || c == '\t' || c == '\n' || c == '\r')

/-- Hexadecimal digit value. -/
def hexVal (c : Char) : Option Nat :=
  if c.isDigit then some (c.toNat - 48)
  else if 'a' ≤ c ∧ c ≤ 'f' then some (c.toNat - 87)
  else if 'A' ≤ c ∧ c ≤ 'F' then some (c.toNat - 55)
  else none

/-- Read a maximal run of decimal digits, returning value, count, rest. -/
def readDigits : Str → Nat → Nat → Nat × Nat × Str
  | [], acc, cnt => (acc, cnt, [])
  | c :: r, acc, cnt =>
    if c.isDigit then readDigits r (acc * 10 + (c.toNat - 48)) (cnt + 1)
    else (acc, cnt, c :: r)

/-- Parse a JSON number starting at the current position. -/
def jpNumber (l : Str) : Option (Rat × Str) :=
  let signed : Bool × Str := match l with
    | '-' :: r => (true, r)
    | _ => (false, l)
  let leadingZero : Bool := match signed.2 with
    | '0' :: d :: _ => d.isDigit
    | _ => false
  let (ip, ic, l2) := readDigits signed.2 0 0
  if ic = 0 || leadingZero then none else
  let fracPart : Option (Nat × Nat × Str) := match l2 with
    | '.' :: r =>
      let (fv, fc, l3) := readDigits r 0 0
      if fc = 0 then none else some (fv, fc, l3)
    | _ => some (0, 0, l2)
  match fracPart with
  | none => none
  | some (fv, fc, l3) =>
    let expPart : Option (Bool × Nat × Str) := match l3 with
      | 'e' :: r | 'E' :: r =>
        let esigned : Bool × Str := match r with
          | '+' :: r2 => (false, r2)
          | '-' :: r2 => (true, r2)
          | _ => (false, r)
        let (ev, ec, l4) := readDigits esigned.2 0 0
        if ec = 0 then none else some (esigned.1, ev, l4)
      | _ => some (false, 0, l3)
    match expPart with
    | none => none
    | some (eneg, ev, l4) =>
      let mant : Rat := ((ip * 10 ^ fc + fv : Nat) : Rat) / ((10 ^ fc : Nat) : Rat)
      let scaled : Rat := if eneg then mant / ((10 ^ ev : Nat) : Rat) else mant * ((10 ^ ev : Nat) : Rat)
      some ((if signed.1 then -scaled else scaled), l4)

mutual

/-- Parse a JSON value at the current position (no leading whitespace). -/
def jpValue : Nat → Str → Option (JsVal × Str)
  | 0, _ => none
  | _ + 1, [] => none
  | f + 1, c :: r =>
    if c == 't' then
      if r.take 3 = chars "rue" then some (.bool true, r.drop 3) else none
    else if c == 'f' then
      if r.take 4 = chars "alse" then some (.bool false, r.drop 4) else none
    else if c == 'n' then
      if r.take 3 = chars "ull" then some (.null, r.drop 3) else none
    else if c == '"' then
      (jpStringRest f r).map (fun p => (.str p.1, p.2))
    else if c == '[' then
      let r1 := skipWs r
      match r1 with
      | ']' :: r2 => some (.arr [], r2)
      | _ => jpElems f r1 []
    else if c == lbrace then
      let r1 := skipWs r
      match r1 with
      | c2 :: r2 => if c2 == rbrace then some (mkObj [], r2) else jpMembers f r1 []
      | [] => none
    else if c == '-' || c.isDigit then
      (jpNumber (c :: r)).map (fun p => (.num p.1, p.2))
    else none

/-- Parse the remainder of a JSON string after the opening quote. -/
def jpStringRest : Nat → Str → Option (Str × Str)
  | 0, _ => none
  | _ + 1, [] => none
  | f + 1, c :: r =>
    if c == '"' then some ([], r)
    else if c == '\\' then
      match r with
      | [] => none
      | e :: r2 =>
        let esc : Option (Char × Str) :=
          if e == '"' then some ('"', r2)
          else if e == '\\' then some ('\\', r2)
          else if e == '/' then some ('/', r2)
          else if e == 'b' then some (Char.ofNat 8, r2)
          else if e == 'f' then some (Char.ofNat 12, r2)
          else if e == 'n' then some ('\n', r2)
          else if e == 'r' then some ('\r', r2)
          else if e == 't' then some ('\t', r2)
          else if e == 'u' then
            match r2 with
            | a :: b :: c2 :: d :: r3 =>
              match hexVal a, hexVal b, hexVal c2, hexVal d with
              | some ha, some hb, some hc, some hd =>
                some (Char.ofNat (((ha * 16 + hb) * 16 + hc) * 16 + hd), r3)
              | _, _, _, _ => none
            | _ => none
          else none
        match esc with
        | some (ch, rest) => (jpStringRest f rest).map (fun p => (ch :: p.1, p.2))
        | none => none
    else if c.toNat < 32 then none
    else (jpStringRest f r).map (fun p => (c :: p.1, p.2))

/-- Parse the elements of a JSON array (after the opening bracket). -/
def jpElems : Nat → Str → List JsVal → Option (JsVal × Str)
  | 0, _, _ => none
  | f + 1, l, acc =>
    match jpValue f l with
    | none => none
    | some (v, r) =>
      match skipWs r with
      | ',' :: r2 => jpElems f (skipWs r2) (acc ++ [v])
      | ']' :: r2 => some (.arr (acc ++ [v]), r2)
      | _ => none

/-- Parse the members of a JSON object (after the opening brace). -/
def jpMembers : Nat → Str → List (Str × JsVal) → Option (JsVal × Str)
  | 0, _, _ => none
  | f + 1, l, acc =>
    match l with
    | '"' :: r =>
      match jpStringRest f r with
      | none => none
      | some (k, r1) =>
        match skipWs r1 with
        | ':' :: r2 =>
          match jpValue f (skipWs r2) with
          | none => none
          | some (v, r3) =>
            match skipWs r3 with
            | ',' :: r4 => jpMembers f (skipWs r4) (acc ++ [(k, v)])
            | c :: r4 => if c == rbrace then some (mkObj (acc ++ [(k, v)]), r4) else none
            | [] => none
        | _ => none
    | _ => none

end

/-- Model of `JSON.parse`: `none` models a thrown `SyntaxError`. -/
def jsonParse (l : Str) : Option JsVal :=
  match jpValue (2 * l.length + 2) (skipWs l) with
  | some (v, rest) => if skipWs rest = [] then some v else none
  | none => none


/-! ### A small backtracking regex engine

The section-extraction patterns of the compatibility parser are encoded as
abstract syntax trees (`RE`) and run by a fueled backtracking matcher with
ECMAScript semantics: ordered alternation, greedy/lazy repetition with the
empty-iteration cut, zero-width lookahead, and a single capture group. -/

inductive RE where
  | eps
  | pred (p : Char → Bool)
  | cat (a b : RE)
  | alt (a b : RE)
  | star (greedy : Bool) (r : RE)
  | look (r : RE)
  | grp (r : RE)
  | eos

/-- Existence-only matcher, used for lookahead. -/
def reB : Nat → RE → Str → (Str → Bool) → Bool
  | 0, _, _, _ => false
  | f + 1, r, l, k =>
    match r with
    | .eps => k l
    | .pred p =>
      match l with
      | [] => false
      | c :: rest => p c && k rest
    | .cat a b => reB f a l (fun l2 => reB f b l2 k)
    | .alt a b => reB f a l k || reB f b l k
    | .star g body =>
      if g then
        reB f body l (fun l2 => if l2.length < l.length then reB f (.star g body) l2 k else false) || k l
      else
        k l || reB f body l (fun l2 => if l2.length < l.length then reB f (.star g body) l2 k else false)
    | .look r2 => reB f r2 l (fun _ => true) && k l
    | .grp r2 => reB f r2 l k
    | .eos =>
      match l with
      | [] => k l
      | _ => false

/-- Backtracking matcher carrying the group-1 capture; the outer `Option`
is match failure, the inner one an unset group. -/
def reC : Nat → RE → Str → Option Str → (Str → Option Str → Option (Option Str)) →
    Option (Option Str)
  | 0, _, _, _, _ => none
  | f + 1, r, l, cap, k =>
    match r with
    | .eps => k l cap
    | .pred p =>
      match l with
      | [] => none
      | c :: rest => if p c then k rest cap else none
    | .cat a b => reC f a l cap (fun l2 c2 => reC f b l2 c2 k)
    | .alt a b =>
      match reC f a l cap k with
      | some res => some res
      | none => reC f b l cap k
    | .star g body =>
      if g then
        match reC f body l cap
            (fun l2 c2 => if l2.length < l.length then reC f (.star g body) l2 c2 k else none) with
        | some res => some res
        | none => k l cap
      else
        match k l cap with
        | some res => some res
        | none =>
          reC f body l cap
            (fun l2 c2 => if l2.length < l.length then reC f (.star g body) l2 c2 k else none)
    | .look r2 => if reB f r2 l (fun _ => true) then k l cap else none
    | .grp r2 => reC f r2 l cap (fun l2 _ => k l2 (some (l.take (l.length - l2.length))))
    | .eos =>
      match l with
      | [] => k l cap
      | _ => none

/-- Fuel bound for the matcher: proportional to the subject length. -/
def reFuel (l : Str) : Nat := 200 * l.length + 2000

/-- Try the pattern at every start position, leftmost match first; on
success return the group-1 capture (empty when the group is unset), the
value the source reads as `match[1]`. -/
def reFindAux (fuel : Nat) (r : RE) : Str → Option Str
  | [] =>
    match reC fuel r [] none (fun _ cap => some cap) with
    | some cap => some (cap.getD [])
    | none => none
  | c :: rest =>
    match reC fuel r (c :: rest) none (fun _ cap => some cap) with
    | some cap => some (cap.getD [])
    | none => reFindAux fuel r rest

/-- Model of `text.match(re)` restricted to what the source uses:
`some capture` when the regex matches somewhere, `none` otherwise. -/
def reFind (r : RE) (l : Str) : Option Str := reFindAux (reFuel l) r l

/-! Pattern constructors mirroring the regex syntax. -/

def reSeq (rs : List RE) : RE := rs.foldr .cat .eps

def reChar (c : Char) : RE := .pred (fun x => x == c)

/-- A literal character under the `/i` flag. -/
def reCharCI (c : Char) : RE := .pred (fun x => x.toLower == c.toLower)

def reLit (s : String) : RE := reSeq ((chars s).map reChar)

def reLitCI (s : String) : RE := reSeq ((chars s).map reCharCI)

def reAlts (rs : List RE) : RE :=
  match rs with
  | [] => .eps
  | r :: rest => rest.foldl .alt r

/-- Greedy `r?`. -/
def reOpt (r : RE) : RE := .alt r .eps

/-- `\s*`. -/
def reWsStar : RE := .star true (.pred jsIsWs)

/-- `\s+`. -/
def reWsPlus : RE := .cat (.pred jsIsWs) reWsStar

/-- `\d+`. -/
def reDigits : RE := .cat (.pred Char.isDigit) (.star true (.pred Char.isDigit))

/-- `(.*?)` under the `/s` flag: the single capture group of each pattern. -/
def reLazyDotGrp : RE := .grp (.star false (.pred (fun _ => true)))

/-- `[:\s]*`. -/
def reColonWsStar : RE := .star true (.pred (fun c => c == ':' || jsIsWs c))

/-- `WORD1\s+WORD2` under `/i`. -/
def reWordPairCI (a b : String) : RE := reSeq [reLitCI a, reWsPlus, reLitCI b]

/-- `(?:d\.?\s*)?`: the optional numbered-header prefix. -/
def reNumHeader (d : Char) : RE := reOpt (reSeq [reChar d, reOpt (reChar '.'), reWsStar])

/-- `\d+\.?\s*` followed by the given alternatives (used inside lookaheads). -/
def reNumThen (alts : List RE) : RE := reSeq [reDigits, reOpt (reChar '.'), reWsStar, reAlts alts]

/-- `d\.?\s*` (a bare numbered-header lookahead alternative). -/
def reDigitHeader (d : Char) : RE := reSeq [reChar d, reOpt (reChar '.'), reWsStar]

/-! The first (array-valued) version of `parseCompatibilityAnalysis`
uses three labeled-section regexes (characterCompatibilityService.js,
lines 226-228). -/

def teamWorkReV1 : RE :=
  reSeq [reNumHeader '1',
    reAlts [reWordPairCI "TEAM" "WORK", reWordPairCI "Team" "Work", reWordPairCI "team" "work"],
    reColonWsStar, reLazyDotGrp,
    .look (reAlts [reNumThen [reLitCI "CONFLICT", reLitCI "Conflict", reLitCI "conflict"],
      reDigitHeader '2', reLitCI "CONFLICT", reLitCI "Conflict", reLitCI "conflict",
      reLitCI "BREAKS", reLitCI "Breaks", reLitCI "breaks"])]

def conflictReV1 : RE :=
  reSeq [reNumHeader '2',
    reAlts [reLitCI "CONFLICT", reLitCI "Conflict", reLitCI "conflict",
      reLitCI "FIGHT", reLitCI "Fight", reLitCI "fight"],
    reColonWsStar, reLazyDotGrp,
    .look (reAlts [reNumThen [reLitCI "BREAKS", reLitCI "Breaks", reLitCI "breaks"],
      reDigitHeader '3', reLitCI "BREAKS", reLitCI "Breaks", reLitCI "breaks",
      reLitCI "Who", reLitCI "who"])]

def breaksReV1 : RE :=
  reSeq [reNumHeader '3',
    reAlts [reWordPairCI "BREAKS" "FIRST", reWordPairCI "Breaks" "First",
      reWordPairCI "breaks" "first", reWordPairCI "Who" "breaks"],
    reColonWsStar, reLazyDotGrp, .eos]


/-! ### Text-to-items conversion (first version of the compatibility parser) -/

/-- Backtick character, kept out of literals. -/
def btick : Char := Char.ofNat 96

/-- Match of the bullet/number split regex
`(?:\n\s*[-•*]\s+|\n\s*\d+\.\s+|\n\s*[•]\s+)` at the current position,
returning the rest of the input after the separator. -/
def bulletMarkerAt (l : Str) : Option Str :=
  match l with
  | '\n' :: rest =>
    let r1 := rest.dropWhile jsIsWs
    let alt1 : Option Str :=
      match r1 with
      | c :: d :: r3 =>
        if (c == '-' || c == '•' || c == '*') && jsIsWs d then some (r3.dropWhile jsIsWs)
        else none
      | _ => none
    match alt1 with
    | some r => some r
    | none =>
      let (_, cnt, r2) := readDigits r1 0 0
      if cnt = 0 then none
      else
        match r2 with
        | '.' :: d :: r3 => if jsIsWs d then some (r3.dropWhile jsIsWs) else none
        | _ => none
  | _ => none

/-- Model of `String.prototype.split` with a separator regex given as a
matcher that recognises a separator at the current position. -/
def splitByMarker (markerAt : Str → Option Str) : Nat → Str → List Str
  | 0, l => [l]
  | _ + 1, [] => [[]]
  | f + 1, c :: rest =>
    match markerAt (c :: rest) with
    | some r => [] :: splitByMarker markerAt f r
    | none =>
      match splitByMarker markerAt f rest with
      | [] => [[c]]
      | p :: ps => (c :: p) :: ps

def splitBullets (l : Str) : List Str := splitByMarker bulletMarkerAt (l.length + 1) l

/-- `[.!?]` — the sentence-split class. -/
def isSentEnd (c : Char) : Bool := c == '.' || c == '!' || c == '?'

/-- `/[.!?]+/` separator at the current position. -/
def sentMarkerAt (l : Str) : Option Str :=
  match l with
  | c :: rest => if isSentEnd c then some (rest.dropWhile isSentEnd) else none
  | [] => none

def splitSentences (l : Str) : List Str := splitByMarker sentMarkerAt (l.length + 1) l

/-- Case-insensitively consume a literal, returning the rest. -/
def startsWithCI : Str → Str → Option Str
  | [], l => some l
  | _ :: _, [] => none
  | p :: ps, c :: cs => if c.toLower == p.toLower then startsWithCI ps cs else none

/-- Whole-string case-insensitive equality with a literal. -/
def eqCI (a : String) (l : Str) : Bool :=
  match startsWithCI (chars a) l with
  | some [] => true
  | _ => false

/-- Whole-string match of `A\s+B` under `/i`. -/
def eqWordPairCI (a b : String) (l : Str) : Bool :=
  match startsWithCI (chars a) l with
  | none => false
  | some r1 =>
    match r1 with
    | c :: _ =>
      jsIsWs c &&
        (match startsWithCI (chars b) (r1.dropWhile jsIsWs) with
         | some [] => true
         | _ => false)
    | [] => false

/-- The discourse-fragment stop list
`^(team\s+work|conflict|breaks\s+first|and|or|but|however|therefore|thus|so|also|furthermore|moreover|in addition|additionally)$/i`. -/
def isStopItem (l : Str) : Bool :=
  eqWordPairCI "team" "work" l || eqCI "conflict" l || eqWordPairCI "breaks" "first" l ||
  eqCI "and" l || eqCI "or" l || eqCI "but" l || eqCI "however" l || eqCI "therefore" l ||
  eqCI "thus" l || eqCI "so" l || eqCI "also" l || eqCI "furthermore" l ||
  eqCI "moreover" l || eqCI "in addition" l || eqCI "additionally" l

/-- `parseTextToArray` (characterCompatibilityService.js, lines 207-223):
split on bullet markers, trim, keep items longer than 10 characters that are
not stop fragments; if at most one item results, fall back to splitting on
sentence punctuation. -/
def parseTextToArray (text : Str) : List Str :=
  if text.isEmpty then []
  else
    let items := ((splitBullets text).map jsTrim).filter
      (fun i => decide (i.length > 10) && !(isStopItem i))
    if items.length ≤ 1 then
      ((splitSentences text).map jsTrim).filter (fun s => decide (s.length > 10))
    else items

/-- `/\n\s*\n/` separator at the current position (greedy `\s*` with the
backtracking that makes the separator end at the last newline of the run). -/
def paraMarkerAt (l : Str) : Option Str :=
  match l with
  | '\n' :: rest =>
    let run := rest.takeWhile jsIsWs
    let j := run.reverse.findIdx (fun c => c == '\n')
    if j < run.length then some (rest.drop (run.length - j)) else none
  | _ => none

def splitParagraphs (l : Str) : List Str := splitByMarker paraMarkerAt (l.length + 1) l

/-- The terminal positional fallback shared by both versions of the
compatibility parser: split the raw text into three ranges
`[0, ⌊L/3⌋)`, `[⌊L/3⌋, 2⌊L/3⌋)`, `[2⌊L/3⌋, L)`. -/
def positionalThirds (l : Str) : Str × Str × Str :=
  let third := l.length / 3
  (jsSubstring l 0 third, jsSubstring l third (2 * third), jsSubstringFrom l (2 * third))

/-- First version of the compatibility record: the three fields are the raw
parsed JSON arrays on the JSON tier, and `.str` items on the text tiers. -/
structure CompatRecordV1 where
  teamWork : List JsVal
  conflicts : List JsVal
  breaksFirst : List JsVal
deriving Repr

/-- `if (parsed.x && Array.isArray(parsed.x)) result.x = parsed.x`
(arrays are always truthy, and the field starts as `[]`). -/
def arrOrEmpty (o : Option JsVal) : List JsVal :=
  match o with
  | some (.arr xs) => xs
  | _ => []

/-- The fenced-code-block cleanup of the first version
(lines 180-183): trim, and when the text starts with three backticks,
remove the first occurrence of three backticks followed by `json` (case
insensitive) and trailing whitespace, then every occurrence of three
backticks with trailing whitespace, then trim again. -/
def fenceJsonAt (l : Str) : Option Str :=
  match l with
  | a :: b :: c :: j :: s :: o :: n :: rest =>
    if a == btick && b == btick && c == btick && j.toLower == 'j' && s.toLower == 's' &&
        o.toLower == 'o' && n.toLower == 'n' then
      some (rest.dropWhile jsIsWs)
    else none
  | _ => none

def stripFenceJsonFirst : Str → Str
  | [] => []
  | c :: rest =>
    match fenceJsonAt (c :: rest) with
    | some r => r
    | none => c :: stripFenceJsonFirst rest

def stripFencesAllAux : Nat → Str → Str
  | 0, l => l
  | _ + 1, [] => []
  | f + 1, a :: r =>
    match r with
    | b :: c :: r2 =>
      if a == btick && b == btick && c == btick then stripFencesAllAux f (r2.dropWhile jsIsWs)
      else a :: stripFencesAllAux f (b :: c :: r2)
    | _ => a :: r

def stripFencesAll (l : Str) : Str := stripFencesAllAux (l.length + 1) l

def cleanCompatV1 (s : Str) : Str :=
  let t := jsTrim s
  if t.take 3 = List.replicate 3 btick then jsTrim (stripFencesAll (stripFenceJsonFirst t))
  else t

/-- The text tiers of the first version (lines 206-257): labeled-section
regexes, then the blank-line paragraph split, then positional thirds. -/
def parseCompatibilityAnalysisV1Text (analysisText : Str) : CompatRecordV1 :=
  let tw : List Str :=
    match reFind teamWorkReV1 analysisText with
    | some cap => parseTextToArray cap
    | none => []
  let cf : List Str :=
    match reFind conflictReV1 analysisText with
    | some cap => parseTextToArray cap
    | none => []
  let bf : List Str :=
    match reFind breaksReV1 analysisText with
    | some cap => parseTextToArray cap
    | none => []
  if tw.isEmpty && cf.isEmpty && bf.isEmpty then
    let sections := splitParagraphs analysisText
    if sections.length ≥ 3 then
      ⟨(parseTextToArray (sections.getD 0 [])).map .str,
       (parseTextToArray (sections.getD 1 [])).map .str,
       (parseTextToArray (sections.getD 2 [])).map .str⟩
    else
      let t := positionalThirds analysisText
      ⟨(parseTextToArray t.1).map .str, (parseTextToArray t.2.1).map .str,
       (parseTextToArray t.2.2).map .str⟩
  else ⟨tw.map .str, cf.map .str, bf.map .str⟩

/-- The first (array-valued) version of `parseCompatibilityAnalysis`
(characterCompatibilityService.js, lines 170-258).  A failed `JSON.parse`
(`none`) is the caught exception of the source's try/catch. -/
def parseCompatibilityAnalysisV1 (analysisText : Str) : CompatRecordV1 :=
  let cleaned := cleanCompatV1 analysisText
  match jsonParse cleaned with
  | some parsed =>
    let tw := arrOrEmpty (jsGet parsed (chars "teamWork"))
    let cf := arrOrEmpty (jsGet parsed (chars "conflicts"))
    let bf := arrOrEmpty (jsGet parsed (chars "breaksFirst"))
    if !tw.isEmpty || !cf.isEmpty || !bf.isEmpty then ⟨tw, cf, bf⟩
    else parseCompatibilityAnalysisV1Text analysisText
  | none => parseCompatibilityAnalysisV1Text analysisText


/-! ### The second (string-valued) version of `parseCompatibilityAnalysis`
(characterCompatibilityService.js, lines 449-525).  It has no JSON tier;
it tries two pattern sets (plain headers, then emoji headers), a
keyword/positional section assignment, and the positional thirds.
Astral-plane emoji are modelled as scalar-value literals. -/

def curlyL : Char := Char.ofNat 8216

def curlyR : Char := Char.ofNat 8217

/-- `[\s\-:]*`. -/
def reWsDashColonStar : RE := .star true (.pred (fun c => jsIsWs c || c == '-' || c == ':'))

/-- `What\s+they['’]d\s+fight` under `/i`. -/
def reWhatTheydFight : RE :=
  reSeq [reLitCI "What", reWsPlus, reLitCI "they",
    .pred (fun c => c == curlyL || c == curlyR), reCharCI 'd', reWsPlus, reLitCI "fight"]

def teamWorkReV2a : RE :=
  reSeq [reNumHeader '1',
    reAlts [reWordPairCI "TEAM" "WORK", reWordPairCI "Team" "Work", reWordPairCI "team" "work"],
    reColonWsStar, reLazyDotGrp,
    .look (reAlts [reNumThen [reLitCI "CONFLICT", reLitCI "Conflict", reLitCI "conflict",
        reLitCI "FIGHT", reLitCI "Fight", reLitCI "fight"],
      reDigitHeader '2', reLitCI "CONFLICT", reLitCI "Conflict", reLitCI "conflict",
      reLitCI "FIGHT", reLitCI "Fight", reLitCI "fight",
      reLitCI "BREAKS", reLitCI "Breaks", reLitCI "breaks"])]

def conflictReV2a : RE :=
  reSeq [reNumHeader '2',
    reAlts [reLitCI "CONFLICT", reLitCI "Conflict", reLitCI "conflict",
      reLitCI "FIGHT", reLitCI "Fight", reLitCI "fight", reWhatTheydFight],
    reColonWsStar, reLazyDotGrp,
    .look (reAlts [reNumThen [reLitCI "BREAKS", reLitCI "Breaks", reLitCI "breaks",
        reLitCI "Who", reLitCI "who"],
      reDigitHeader '3', reLitCI "BREAKS", reLitCI "Breaks", reLitCI "breaks",
      reLitCI "Who", reLitCI "who"])]

def breaksReV2a : RE :=
  reSeq [reNumHeader '3',
    reAlts [reWordPairCI "BREAKS" "FIRST", reWordPairCI "Breaks" "First",
      reWordPairCI "breaks" "first", reWordPairCI "Who" "breaks", reWordPairCI "who" "breaks"],
    reColonWsStar, reLazyDotGrp, .eos]

def emojiHandshake : RE := reChar (Char.ofNat 129309)

def emojiBusts : RE := reChar (Char.ofNat 128101)

def emojiSwordsVS : RE := .cat (reChar (Char.ofNat 9876)) (reChar (Char.ofNat 65039))

def emojiSwords : RE := reChar (Char.ofNat 9876)

def emojiCollision : RE := reChar (Char.ofNat 128165)

def emojiBomb : RE := reChar (Char.ofNat 128163)

def teamWorkReV2b : RE :=
  reSeq [reAlts [emojiHandshake, emojiBusts, reChar '1'], reWsDashColonStar,
    reAlts [reLitCI "TEAM", reLitCI "Team", reLitCI "team"], reWsDashColonStar,
    reOpt (reAlts [reLitCI "WORK", reLitCI "Work", reLitCI "work"]), reWsDashColonStar,
    reLazyDotGrp,
    .look (reAlts [emojiSwordsVS, emojiSwords, reChar '2', reLitCI "CONFLICT",
      reLitCI "Conflict", reLitCI "conflict", reLitCI "FIGHT", reLitCI "Fight", reLitCI "fight"])]

def conflictReV2b : RE :=
  reSeq [reAlts [emojiSwordsVS, emojiSwords, reChar '2'], reWsDashColonStar,
    reAlts [reLitCI "CONFLICT", reLitCI "Conflict", reLitCI "conflict",
      reLitCI "FIGHT", reLitCI "Fight", reLitCI "fight", reLitCI "What"], reWsDashColonStar,
    reLazyDotGrp,
    .look (reAlts [emojiCollision, emojiBomb, reChar '3', reLitCI "BREAKS",
      reLitCI "Breaks", reLitCI "breaks", reLitCI "Who", reLitCI "who"])]

def breaksReV2b : RE :=
  reSeq [reAlts [emojiCollision, emojiBomb, reChar '3'], reWsDashColonStar,
    reAlts [reLitCI "BREAKS", reLitCI "Breaks", reLitCI "breaks", reLitCI "Who", reLitCI "who"],
    reWsDashColonStar, reOpt (reAlts [reLitCI "FIRST", reLitCI "First", reLitCI "first"]),
    reWsDashColonStar, reLazyDotGrp, .eos]

/-- Second version of the compatibility record: three plain strings. -/
structure CompatRecordV2 where
  teamWork : Str
  conflicts : Str
  breaksFirst : Str
deriving Repr

/-- `/\n\s*\n|---|\*\*\*/` separator at the current position. -/
def sectionMarkerV2At (l : Str) : Option Str :=
  match paraMarkerAt l with
  | some r => some r
  | none =>
    match l with
    | '-' :: '-' :: '-' :: r => some r
    | '*' :: '*' :: '*' :: r => some r
    | _ => none

def splitSectionsV2 (l : Str) : List Str := splitByMarker sectionMarkerV2At (l.length + 1) l

/-- Literal prefix test. -/
def startsWithLit : Str → Str → Bool
  | [], _ => true
  | _ :: _, [] => false
  | p :: ps, c :: cs => p == c && startsWithLit ps cs

/-- Model of `String.prototype.includes`. -/
def containsSub (sub : Str) : Str → Bool
  | [] => startsWithLit sub []
  | c :: rest => startsWithLit sub (c :: rest) || containsSub sub rest

/-- `section.replace(/^[^\w]*/, '')`: drop leading non-word characters. -/
def stripNonWordLead (l : Str) : Str :=
  l.dropWhile (fun c => !(c.isAlphanum || c == '_'))

/-- The keyword-based section assignment loop (lines 491-500): each section
fills the first still-empty field whose keyword set it contains. -/
def assignSectionsV2 (sections : List Str) (init : CompatRecordV2) : CompatRecordV2 :=
  sections.foldl (fun acc sec =>
    let low := sec.map Char.toLower
    if acc.teamWork.isEmpty && (containsSub (chars "team") low || containsSub (chars "work") low) then
      { acc with teamWork := jsTrim (stripNonWordLead sec) }
    else if acc.conflicts.isEmpty &&
        (containsSub (chars "conflict") low || containsSub (chars "fight") low) then
      { acc with conflicts := jsTrim (stripNonWordLead sec) }
    else if acc.breaksFirst.isEmpty &&
        (containsSub (chars "break") low || containsSub (chars "first") low) then
      { acc with breaksFirst := jsTrim (stripNonWordLead sec) }
    else acc) init

/-- `if (!result.x && sections[i]) result.x = sections[i].replace(...).trim()`. -/
def posAssignV2 (sections : List Str) (cur : Str) (i : Nat) : Str :=
  if cur.isEmpty then
    let s := sections.getD i []
    if s.isEmpty then cur else jsTrim (stripNonWordLead s)
  else cur

/-- The second version of `parseCompatibilityAnalysis`. -/
def parseCompatibilityAnalysisV2 (analysisText : Str) : CompatRecordV2 :=
  let fromPatterns : CompatRecordV2 :=
    match reFind teamWorkReV2a analysisText, reFind conflictReV2a analysisText,
        reFind breaksReV2a analysisText with
    | some a, some b, some c => ⟨jsTrim a, jsTrim b, jsTrim c⟩
    | _, _, _ =>
      match reFind teamWorkReV2b analysisText, reFind conflictReV2b analysisText,
          reFind breaksReV2b analysisText with
      | some a, some b, some c => ⟨jsTrim a, jsTrim b, jsTrim c⟩
      | _, _, _ => ⟨[], [], []⟩
  let afterSections : CompatRecordV2 :=
    if fromPatterns.teamWork.isEmpty || fromPatterns.conflicts.isEmpty ||
        fromPatterns.breaksFirst.isEmpty then
      let sections := splitSectionsV2 analysisText
      if sections.length ≥ 3 then
        let t := assignSectionsV2 sections fromPatterns
        ⟨posAssignV2 sections t.teamWork 0, posAssignV2 sections t.conflicts 1,
         posAssignV2 sections t.breaksFirst 2⟩
      else fromPatterns
    else fromPatterns
  if afterSections.teamWork.isEmpty || afterSections.conflicts.isEmpty ||
      afterSections.breaksFirst.isEmpty then
    let t := positionalThirds analysisText
    ⟨if afterSections.teamWork.isEmpty then jsTrim t.1 else afterSections.teamWork,
     if afterSections.conflicts.isEmpty then jsTrim t.2.1 else afterSections.conflicts,
     if afterSections.breaksFirst.isEmpty then jsTrim t.2.2 else afterSections.breaksFirst⟩
  else afterSections


/-! ### The evaluation extractors -/

/-- The enumerated `checks` fields of character evaluation. -/
def requiredChecks : List Str :=
  [chars "nameMentioned", chars "statusMentioned", chars "speciesMentioned",
   chars "typeMentioned", chars "genderMentioned", chars "originMentioned",
   chars "locationMentioned", chars "visualAppearanceMentioned"]

/-- The enumerated `qualityChecks` fields of character evaluation. -/
def requiredQualityChecks : List Str :=
  [chars "hasEpisodeContext", chars "hasLocationContext", chars "hasRickAndMortyStyle",
   chars "hasCharacterDepth"]

/-- An evaluation record as assembled by the parsing routines; the four
fields hold JS values exactly as the source builds them. -/
structure EvalRecord where
  checks : JsVal
  qualityChecks : JsVal
  autoScore : JsVal
  explanation : JsVal
deriving Repr

/-- `keys.forEach(k => if (o[k] === undefined) o[k] = false)`. -/
def ensureKeys (keys : List Str) (o : JsVal) : JsVal :=
  match keys with
  | [] => o
  | k :: rest =>
    ensureKeys rest
      (match jsGet o k with
       | some _ => o
       | none => jsSet o k (.bool false))

/-- The result construction shared by the character evaluation parser and
the insights-service evaluation parser (characterEvaluationService.js
lines 61-88, src/unnamed/part_003 lines 71-98): default the containers,
default `autoScore` to 0 and `explanation` to the placeholder, and set
each enumerated field that is still `undefined` to `false`. -/
def buildEvalResult (parsed : JsVal) : EvalRecord :=
  { checks := ensureKeys requiredChecks (orDefault (jsGet parsed (chars "checks")) (.obj [])),
    qualityChecks :=
      ensureKeys requiredQualityChecks (orDefault (jsGet parsed (chars "qualityChecks")) (.obj [])),
    autoScore := (jsGet parsed (chars "autoScore")).getD (.num 0),
    explanation := orDefault (jsGet parsed (chars "explanation")) (.str (chars "No explanation provided")) }

/-- `parseEvaluationResponse` of characterEvaluationService.js (lines
53-96): parse the trimmed text as JSON; on failure throw
`Failed to parse evaluation response`. -/
def parseEvaluationResponseCharEval (evaluationText : Str) : Except Str EvalRecord :=
  match jsonParse (jsTrim evaluationText) with
  | some parsed => .ok (buildEvalResult parsed)
  | none => .error (chars "Failed to parse evaluation response")

/-- `if (!o[k] && o[k] !== false) o[k] = false` — the per-key fix of
`formatEvaluationResult`. -/
def fixCheckKey (k : Str) (o : JsVal) : JsVal :=
  match jsGet o k with
  | some (.bool false) => o
  | some v => if truthy v then o else jsSet o k (.bool false)
  | none => jsSet o k (.bool false)

/-- `formatEvaluationResult` of the location-evaluation service
(second document of characterInsightsService.js, lines 221-241). -/
def formatEvaluationResult (parsed : JsVal) : EvalRecord :=
  { checks :=
      fixCheckKey (chars "dimensionMentioned")
        (fixCheckKey (chars "typeMentioned")
          (fixCheckKey (chars "nameMentioned")
            (orDefault (jsGet parsed (chars "checks")) (.obj [])))),
    qualityChecks := orDefault (jsGet parsed (chars "qualityChecks")) (.obj []),
    autoScore := (jsGet parsed (chars "autoScore")).getD (.num 0),
    explanation := orDefault (jsGet parsed (chars "explanation")) (.str (chars "No explanation provided")) }

/-- The three check fields the location formatter ensures (lines 230-238).
The location schema enumerates a fourth check, `totalResidentsMentioned`,
and three quality checks, none of which the formatter ensures. -/
def locationEnsuredChecks : List Str :=
  [chars "nameMentioned", chars "typeMentioned", chars "dimensionMentioned"]

/-- Whether the per-key fix keeps a present value: an explicit `false` or
any truthy value survives, everything else is overwritten. -/
def keepCheckVal (v : JsVal) : Bool :=
  match v with
  | .bool false => true
  | _ => truthy v

/-- The value an ensured key holds after the per-key fix of
`formatEvaluationResult`: absent and falsy-non-false values become
`false`, explicit `false` and truthy values (boolean or not) survive. -/
def fixVal (o : Option JsVal) : JsVal :=
  match o with
  | some v => if keepCheckVal v then v else .bool false
  | none => .bool false

/-- `parseEvaluationResponse` of the location-evaluation service (lines
203-214 of the same document): throws on invalid JSON. -/
def parseEvaluationResponseLocation (evaluationText : Str) : Except Str EvalRecord :=
  match jsonParse (jsTrim evaluationText) with
  | some parsed => .ok (formatEvaluationResult parsed)
  | none => .error (chars "Failed to parse evaluation response")

/-- `/\{[\s\S]*\}/`: the greedy embedded-object match, from the first left
brace to the last right brace at or after it. -/
def braceMatch (l : Str) : Option Str :=
  let seg := l.dropWhile (fun c => !(c == lbrace))
  match seg with
  | [] => none
  | _ =>
    let cutRev := seg.reverse.dropWhile (fun c => !(c == rbrace))
    match cutRev with
    | [] => none
    | _ => some cutRev.reverse

/-- The degraded all-false record of src/unnamed/part_003 (lines 110-129). -/
def degradedEvalRecord (cleanedText : Str) : EvalRecord :=
  { checks := .obj (requiredChecks.map (fun k => (k, .bool false))),
    qualityChecks := .obj (requiredQualityChecks.map (fun k => (k, .bool false))),
    autoScore := .num 0,
    explanation := .str (chars "Failed to parse evaluation response. Raw response: " ++
      jsSubstring cleanedText 0 100 ++ chars "...") }

/-- `parseEvaluationResponse` of src/unnamed/part_003 (lines 53-130): trim,
strip a fenced code block (the same cleanup as `cleanCompatV1`), extract
the brace-delimited substring, parse it; on any failure return the
degraded record instead of throwing. -/
def parseEvaluationResponsePart003 (evaluationText : Str) : EvalRecord :=
  let cleaned := cleanCompatV1 evaluationText
  match braceMatch cleaned with
  | some sub =>
    match jsonParse sub with
    | some parsed => buildEvalResult parsed
    | none => degradedEvalRecord cleaned
  | none => degradedEvalRecord cleaned

/-! ### The insights extractor -/

mutual

/-- Model of JS `String(v)` (exact for the values the claims touch;
non-integral numbers are abstracted). -/
def jsToString : JsVal → Str
  | .null => chars "null"
  | .bool true => chars "true"
  | .bool false => chars "false"
  | .num q => if q.den = 1 then (toString q.num).data
      else (toString q.num).data ++ '/' :: (toString q.den).data
  | .str s => s
  | .arr xs => jsToStringArr xs
  | .obj _ => chars "[object Object]"

/-- JS array-to-string: elements joined with commas, null as empty. -/
def jsToStringArr : List JsVal → Str
  | [] => []
  | .null :: rest =>
    match rest with
    | [] => []
    | _ => ',' :: jsToStringArr rest
  | v :: rest =>
    match rest with
    | [] => jsToString v
    | _ => jsToString v ++ ',' :: jsToStringArr rest

end

/-- `typeof insight === 'string' ? insight : insight.text || insight.insight || String(insight)`. -/
def insightToVal (v : JsVal) : JsVal :=
  match v with
  | .str s => .str s
  | _ => orDefault (jsGet v (chars "text"))
      (orDefault (jsGet v (chars "insight")) (.str (jsToString v)))

/-- Split into lines at newlines. -/
def splitOnNl (l : Str) : List Str :=
  splitByMarker (fun s => match s with | '\n' :: r => some r | _ => none) (l.length + 1) l

/-- A line matching `^\d+[\.\)]\s*(.+)$`, reduced by
`replace(/^\d+[\.\)]\s*/, '')` and trimmed. -/
def numberedLineRest (line : Str) : Option Str :=
  let (_, cnt, r) := readDigits line 0 0
  if cnt = 0 then none
  else
    match r with
    | c :: r2 =>
      if (c == '.' || c == ')') && !r2.isEmpty then some (jsTrim (r2.dropWhile jsIsWs))
      else none
    | [] => none

/-- A line matching `^[-•*]\s*(.+)$`, reduced and trimmed. -/
def bulletLineRest (line : Str) : Option Str :=
  match line with
  | c :: r2 =>
    if (c == '-' || c == '•' || c == '*') && !r2.isEmpty then some (jsTrim (r2.dropWhile jsIsWs))
    else none
  | [] => none

/-- Case-insensitive tail of the header filter: optional `s`, optional `:`. -/
def headerTail (l : Str) : Bool :=
  let low := l.map Char.toLower
  low = [] || low = chars "s" || low = chars ":" || low = chars "s:"

/-- `^(insights?|suggestions?):?$/i`. -/
def isInsightsHeader (l : Str) : Bool :=
  (match startsWithCI (chars "insight") l with
   | some r => headerTail r
   | none => false) ||
  (match startsWithCI (chars "suggestion") l with
   | some r => headerTail r
   | none => false)

/-- The text tiers of `parseInsights`: numbered lines, else bulleted
lines, else nonempty non-header lines truncated to five. -/
def parseInsightsText (insightsText : Str) : List JsVal :=
  let lines := splitOnNl insightsText
  let numbered := lines.filterMap numberedLineRest
  if !numbered.isEmpty then numbered.map .str
  else
    let bullets := lines.filterMap bulletLineRest
    if !bullets.isEmpty then bullets.map .str
    else
      (((lines.map jsTrim).filter
        (fun line => !line.isEmpty && !isInsightsHeader line)).take 5).map .str

/-- `parseInsights` (characterInsightsService.js lines 117-153): a JSON
array is mapped element-wise; a `null` element makes the mapping throw a
TypeError inside the same try block (property access on null), falling
through to the text tiers, as does any non-array parse. -/
def parseInsights (insightsText : Str) : List JsVal :=
  match jsonParse insightsText with
  | some (.arr parsed) =>
    if parsed.any (fun v => match v with | .null => true | _ => false) then
      parseInsightsText insightsText
    else parsed.map insightToVal
  | _ => parseInsightsText insightsText

/-- The character attributes the fallback templates draw from. -/
structure CharacterData where
  name : Str
  status : Str
  species : Str
  origin : Str
  location : Str

/-- Apostrophe character. -/
def apos : Char := Char.ofNat 39

/-- `generateFallbackInsights` (lines 155-163): five deterministic
template insights built from the character attributes. -/
def generateFallbackInsights (c : CharacterData) : List Str :=
  [c.name ++ chars " is a " ++ c.status ++ chars " " ++ c.species ++
     chars " with a unique role in the Rick and Morty universe.",
   chars "The character" ++ apos :: chars "s origin from " ++ c.origin ++
     chars " suggests interesting backstory potential.",
   c.name ++ apos :: chars "s current location at " ++ c.location ++
     chars " indicates their current story arc.",
   chars "The visual appearance of " ++ c.name ++
     chars " reflects their species and personality traits.",
   chars "This character" ++ apos ::
     chars "s journey through the multiverse offers rich narrative possibilities."]

/-- The insight-producing tail of `generateCharacterInsights` (lines
101-115): on generation success, the parsed insights truncated to five;
on generation failure, the five template insights. -/
def generateCharacterInsightsCore (llmOutcome : Except Unit Str) (c : CharacterData) :
    List JsVal :=
  match llmOutcome with
  | .ok insightsText => (parseInsights insightsText).take 5
  | .error _ => (generateFallbackInsights c).map .str

/-! ### The search service -/

/-- The truncation step of `generateQueryEmbedding` (searchService.js
lines 81-86) and of the sync script's `generateEmbedding`
(src/unnamed/part_006 lines 132-137), applied to the extracted vector. -/
def truncateEmbedding (embedding : List Rat) : List Rat :=
  if embedding.length > 768 then embedding.take 768 else embedding

/-- `/\s+/` separator at the current position. -/
def wsRunMarkerAt (l : Str) : Option Str :=
  match l with
  | c :: rest => if jsIsWs c then some (rest.dropWhile jsIsWs) else none
  | [] => none

/-- `query.split(/\s+/)`. -/
def splitWsRuns (l : Str) : List Str := splitByMarker wsRunMarkerAt (l.length + 1) l

/-- `enhanceQueryWithLLM` (searchService.js lines 31-47), with the
generation capability as a parameter; its failures are rethrown. -/
def enhanceQueryWithLLM (llm : Str → Except Unit Str) (query : Str) : Except Unit Str :=
  let trimmedQuery := jsTrim query
  let words := (splitWsRuns trimmedQuery).filter (fun w => decide (0 < w.length))
  if words.length ≤ 2 && 0 < trimmedQuery.length then
    (llm trimmedQuery).map jsTrim
  else .ok query

/-- One row of the unified `entities` table. -/
structure EntityRow where
  id : Int
  entity_type : Str
  name : Str
  status : Str
  species : Str
  type : Str
  gender : Str
  image : Str
  location_name : Str
  location_type : Str
  dimension : Str
  embedding : Option (List Rat)

/-- The `WHERE embedding IS NOT NULL` filter, with each row paired with
its `embedding <=> $1::vector` distance to the query vector; the cosine
distance operator of the datastore is the `dist` parameter. -/
def rowsWithDistance (dist : List Rat → List Rat → Rat) (q : List Rat)
    (table : List EntityRow) : List (EntityRow × Rat) :=
  table.filterMap (fun r => r.embedding.map (fun e => (r, dist e q)))

/-- Ordering of rows by their distance column. -/
def rowLE (a b : EntityRow × Rat) : Prop := a.2 ≤ b.2

instance : DecidableRel rowLE := fun a b => inferInstanceAs (Decidable (a.2 ≤ b.2))

instance : IsTotal (EntityRow × Rat) rowLE := ⟨fun a b => le_total a.2 b.2⟩

instance : IsTrans (EntityRow × Rat) rowLE := ⟨fun _ _ _ h1 h2 => le_trans h1 h2⟩

/-- The datastore query of `semanticSearch` (lines 107-125):
`ORDER BY embedding <=> $1::vector LIMIT $2` over both entity variants at
once; the sort is modelled by insertion sort (ties are index-defined). -/
def rankRows (dist : List Rat → List Rat → Rat) (q : List Rat) (lim : Nat)
    (table : List EntityRow) : List (EntityRow × Rat) :=
  ((rowsWithDistance dist q table).insertionSort rowLE).take lim

/-- The per-row result object of `semanticSearch` (lines 130-156).  The
character branch spells the `type` property twice — first with the row's
species-type attribute, then with the literal `character`. -/
def formatSearchRow (p : EntityRow × Rat) : JsVal :=
  if p.1.entity_type = chars "character" then
    mkObj [(chars "id", .num p.1.id), (chars "name", .str p.1.name),
      (chars "status", .str p.1.status), (chars "species", .str p.1.species),
      (chars "type", .str p.1.type), (chars "gender", .str p.1.gender),
      (chars "image", .str p.1.image), (chars "location", .str p.1.location_name),
      (chars "distance", .num p.2), (chars "type", .str (chars "character"))]
  else
    mkObj [(chars "id", .num p.1.id), (chars "name", .str p.1.name),
      (chars "locationType", .str p.1.location_type), (chars "dimension", .str p.1.dimension),
      (chars "distance", .num p.2), (chars "type", .str (chars "location"))]

/-- The `results` list returned by `semanticSearch`. -/
def semanticSearchResults (dist : List Rat → List Rat → Rat) (q : List Rat) (lim : Nat)
    (table : List EntityRow) : List JsVal :=
  (rankRows dist q lim table).map formatSearchRow


/-! ### Association-list lemmas for the object model -/

lemma getEntry_append (es1 es2 : List (Str × JsVal)) (k : Str) :
    getEntry (es1 ++ es2) k =
      match getEntry es1 k with
      | some v => some v
      | none => getEntry es2 k := by
  induction es1 with
  | nil => rfl
  | cons hd tl ih =>
    obtain ⟨k1, v1⟩ := hd
    by_cases h : k1 = k
    · simp [getEntry, h]
    · simp [getEntry, h, ih]

lemma any_key_iff (es : List (Str × JsVal)) (k : Str) :
    es.any (fun p => decide (p.1 = k)) = (getEntry es k).isSome := by
  induction es with
  | nil => rfl
  | cons hd tl ih =>
    obtain ⟨k1, v1⟩ := hd
    by_cases h : k1 = k
    · simp [getEntry, h]
    · simp [getEntry, h, ih]

lemma getEntry_mapSet (es : List (Str × JsVal)) (k : Str) (v : JsVal) :
    getEntry (es.map (fun p => if p.1 = k then (k, v) else p)) k =
      match getEntry es k with
      | some _ => some v
      | none => none := by
  induction es with
  | nil => rfl
  | cons hd tl ih =>
    obtain ⟨k1, v1⟩ := hd
    simp only [List.map_cons]
    by_cases h : k1 = k
    · rw [if_pos h]
      simp [getEntry, h]
    · rw [if_neg h]
      simp [getEntry, h, ih]

lemma getEntry_mapSet_ne (es : List (Str × JsVal)) (k k' : Str) (v : JsVal) (h : k ≠ k') :
    getEntry (es.map (fun p => if p.1 = k then (k, v) else p)) k' = getEntry es k' := by
  induction es with
  | nil => rfl
  | cons hd tl ih =>
    obtain ⟨k1, v1⟩ := hd
    simp only [List.map_cons]
    by_cases h1 : k1 = k
    · subst h1
      rw [if_pos rfl]
      simp [getEntry, h, ih]
    · rw [if_neg h1]
      simp [getEntry, h1, ih]

lemma getEntry_setEntry_self (es : List (Str × JsVal)) (k : Str) (v : JsVal) :
    getEntry (setEntry es k v) k = some v := by
  unfold setEntry
  cases hg : getEntry es k with
  | some w =>
    rw [if_pos (by rw [any_key_iff, hg]; rfl), getEntry_mapSet, hg]
  | none =>
    rw [if_neg (by rw [any_key_iff, hg]; simp), getEntry_append, hg]
    simp [getEntry]

lemma getEntry_setEntry_ne (es : List (Str × JsVal)) (k k' : Str) (v : JsVal) (h : k ≠ k') :
    getEntry (setEntry es k v) k' = getEntry es k' := by
  unfold setEntry
  by_cases hany : es.any (fun p => decide (p.1 = k))
  · rw [if_pos hany, getEntry_mapSet_ne _ _ _ _ h]
  · rw [if_neg hany, getEntry_append]
    cases hg : getEntry es k' with
    | some w => rfl
    | none =>
      have hne : ¬k = k' := h
      simp [getEntry, hne]

lemma jsGet_ensureKeys (keys : List Str) (es : List (Str × JsVal)) (k : Str) :
    jsGet (ensureKeys keys (.obj es)) k =
      match getEntry es k with
      | some v => some v
      | none => if k ∈ keys then some (.bool false) else none := by
  induction keys generalizing es with
  | nil =>
    show jsGet (JsVal.obj es) k = _
    cases hg : getEntry es k with
    | some w => simp [jsGet, hg]
    | none => simp [jsGet, hg]
  | cons k0 keys ih =>
    have hstep : ensureKeys (k0 :: keys) (.obj es) =
        ensureKeys keys
          (match getEntry es k0 with
           | some _ => JsVal.obj es
           | none => JsVal.obj (setEntry es k0 (.bool false))) := by
      rfl
    rw [hstep]
    cases hg : getEntry es k0 with
    | some w =>
      rw [ih]
      cases hg2 : getEntry es k with
      | some u => rfl
      | none =>
        have hk : ¬k = k0 := by
          intro hh
          rw [hh, hg] at hg2
          cases hg2
        simp [List.mem_cons, hk]
    | none =>
      rw [ih]
      by_cases hk : k = k0
      · subst hk
        rw [getEntry_setEntry_self, hg]
        simp
      · rw [getEntry_setEntry_ne _ _ _ _ (fun hh => hk hh.symm)]
        cases hg2 : getEntry es k with
        | some u => rfl
        | none => simp [List.mem_cons, hk]


lemma fixCheckKey_obj (es : List (Str × JsVal)) (k : Str) :
    ∃ es', fixCheckKey k (.obj es) = .obj es' ∧
      getEntry es' k = some (fixVal (getEntry es k)) ∧
      ∀ k', k' ≠ k → getEntry es' k' = getEntry es k' := by
  have hjs : jsGet (JsVal.obj es) k = getEntry es k := rfl
  unfold fixCheckKey
  rw [hjs]
  cases hg : getEntry es k with
  | none =>
    exact ⟨setEntry es k (.bool false), rfl, by rw [getEntry_setEntry_self]; rfl,
      fun k' h => getEntry_setEntry_ne es k k' _ (Ne.symm h)⟩
  | some v =>
    cases v with
    | bool b =>
      cases b with
      | false => exact ⟨es, rfl, by rw [hg]; rfl, fun _ _ => rfl⟩
      | true => exact ⟨es, rfl, by rw [hg]; rfl, fun _ _ => rfl⟩
    | null =>
      exact ⟨setEntry es k (.bool false), rfl, by rw [getEntry_setEntry_self]; rfl,
        fun k' h => getEntry_setEntry_ne es k k' _ (Ne.symm h)⟩
    | arr xs => exact ⟨es, rfl, by rw [hg]; rfl, fun _ _ => rfl⟩
    | obj es0 => exact ⟨es, rfl, by rw [hg]; rfl, fun _ _ => rfl⟩
    | num q =>
      cases ht : truthy (JsVal.num q) with
      | true =>
        refine ⟨es, ?_, ?_, fun _ _ => rfl⟩
        · show (if truthy (JsVal.num q) then JsVal.obj es
            else jsSet (JsVal.obj es) k (JsVal.bool false)) = JsVal.obj es
          rw [ht]; rfl
        · rw [hg]
          show some (JsVal.num q) =
            some (if truthy (JsVal.num q) then JsVal.num q else JsVal.bool false)
          rw [ht]; rfl
      | false =>
        refine ⟨setEntry es k (.bool false), ?_, ?_,
          fun k' h => getEntry_setEntry_ne es k k' _ (Ne.symm h)⟩
        · show (if truthy (JsVal.num q) then JsVal.obj es
            else jsSet (JsVal.obj es) k (JsVal.bool false)) =
            JsVal.obj (setEntry es k (JsVal.bool false))
          rw [ht]; rfl
        · rw [getEntry_setEntry_self]
          show some (JsVal.bool false) =
            some (if truthy (JsVal.num q) then JsVal.num q else JsVal.bool false)
          rw [ht]; rfl
    | str s =>
      cases ht : truthy (JsVal.str s) with
      | true =>
        refine ⟨es, ?_, ?_, fun _ _ => rfl⟩
        · show (if truthy (JsVal.str s) then JsVal.obj es
            else jsSet (JsVal.obj es) k (JsVal.bool false)) = JsVal.obj es
          rw [ht]; rfl
        · rw [hg]
          show some (JsVal.str s) =
            some (if truthy (JsVal.str s) then JsVal.str s else JsVal.bool false)
          rw [ht]; rfl
      | false =>
        refine ⟨setEntry es k (.bool false), ?_, ?_,
          fun k' h => getEntry_setEntry_ne es k k' _ (Ne.symm h)⟩
        · show (if truthy (JsVal.str s) then JsVal.obj es
            else jsSet (JsVal.obj es) k (JsVal.bool false)) =
            JsVal.obj (setEntry es k (JsVal.bool false))
          rw [ht]; rfl
        · rw [getEntry_setEntry_self]
          show some (JsVal.bool false) =
            some (if truthy (JsVal.str s) then JsVal.str s else JsVal.bool false)
          rw [ht]; rfl

lemma foldl_jsSet_get (l : List (Str × JsVal)) (es : List (Str × JsVal)) (k : Str) :
    jsGet (l.foldl (fun acc p => jsSet acc p.1 p.2) (.obj es)) k =
      match getEntry l.reverse k with
      | some v => some v
      | none => getEntry es k := by
  induction l generalizing es with
  | nil => rfl
  | cons hd rest ih =>
    obtain ⟨k0, v0⟩ := hd
    have hfold : ((k0, v0) :: rest).foldl (fun acc p => jsSet acc p.1 p.2) (JsVal.obj es) =
        rest.foldl (fun acc p => jsSet acc p.1 p.2) (JsVal.obj (setEntry es k0 v0)) := rfl
    rw [hfold, ih]
    have hrev : ((k0, v0) :: rest).reverse = rest.reverse ++ [(k0, v0)] := by
      simp
    rw [hrev, getEntry_append]
    cases hg : getEntry rest.reverse k with
    | some v => rfl
    | none =>
      by_cases hk : k0 = k
      · subst hk
        rw [getEntry_setEntry_self]
        simp [getEntry]
      · rw [getEntry_setEntry_ne _ _ _ _ hk]
        simp [getEntry, hk]

/-- Lookup into a JS object literal: the last binding of a key wins. -/
lemma jsGet_mkObj (l : List (Str × JsVal)) (k : Str) :
    jsGet (mkObj l) k =
      match getEntry l.reverse k with
      | some v => some v
      | none => none := by
  unfold mkObj
  rw [foldl_jsSet_get]
  cases getEntry l.reverse k <;> rfl

/-! ### Claim theorems -/

/-- C1: both versions of the compatibility extractor return, for every
input string (empty, whitespace, a single token, punctuation-free text),
a record carrying all three fields `teamWork`, `conflicts`, `breaksFirst`
and never throw: the only throwing operation, `JSON.parse`, is modelled by
the caught `Option` and the cascade ends in the always-defined positional
tier. -/
theorem parseCompatibilityAnalysis_total (s : Str) :
    (∃ tw cf bf, parseCompatibilityAnalysisV1 s = ⟨tw, cf, bf⟩) ∧
    (∃ tw cf bf, parseCompatibilityAnalysisV2 s = ⟨tw, cf, bf⟩) :=
  ⟨⟨_, _, _, rfl⟩, ⟨_, _, _, rfl⟩⟩

/-- C7: the terminal positional fallback splits the input of length `L`
into the three contiguous ranges `[0, ⌊L/3⌋)`, `[⌊L/3⌋, 2⌊L/3⌋)`,
`[2⌊L/3⌋, L)` whose concatenation (before any trimming) reconstructs the
text; the tier is defined on every input. -/
theorem positionalThirds_partition (l : Str) :
    (positionalThirds l).1.length = l.length / 3 ∧
    (positionalThirds l).2.1.length = l.length / 3 ∧
    (positionalThirds l).1 ++ ((positionalThirds l).2.1 ++ (positionalThirds l).2.2) = l := by
  have h3 : l.length / 3 * 3 ≤ l.length := Nat.div_mul_le_self _ _
  have ht : l.length / 3 ≤ l.length := by omega
  have h2t : 2 * (l.length / 3) ≤ l.length := by omega
  have htt : l.length / 3 ≤ 2 * (l.length / 3) := by omega
  have e1 : (positionalThirds l).1 = l.take (l.length / 3) := by
    show jsSubstring l 0 (l.length / 3) = _
    unfold jsSubstring
    simp [Nat.min_eq_left ht]
  have e2 : (positionalThirds l).2.1 = (l.drop (l.length / 3)).take (l.length / 3) := by
    show jsSubstring l (l.length / 3) (2 * (l.length / 3)) = _
    unfold jsSubstring
    dsimp only
    rw [Nat.min_eq_left ht, Nat.min_eq_left h2t, Nat.max_eq_right htt, Nat.min_eq_left htt]
    rw [List.drop_take]
    congr 1
    omega
  have e3 : (positionalThirds l).2.2 = l.drop (2 * (l.length / 3)) := rfl
  refine ⟨?_, ?_, ?_⟩
  · rw [e1, List.length_take]
    omega
  · rw [e2, List.length_take, List.length_drop]
    omega
  · rw [e1, e2, e3]
    have hdd : l.drop (2 * (l.length / 3)) = (l.drop (l.length / 3)).drop (l.length / 3) := by
      rw [List.drop_drop]
      congr 1
      omega
    rw [hdd, List.take_append_drop, List.take_append_drop]

/-- C5: the embedding truncation postcondition of `generateQueryEmbedding`:
an extracted vector longer than 768 is cut to exactly its first 768
elements in order; a vector of length at most 768 passes through
unchanged. -/
theorem truncateEmbedding_spec (v : List Rat) :
    (768 < v.length → truncateEmbedding v = v.take 768 ∧ (truncateEmbedding v).length = 768) ∧
    (v.length ≤ 768 → truncateEmbedding v = v) := by
  constructor
  · intro h
    have he : truncateEmbedding v = v.take 768 := by
      unfold truncateEmbedding
      rw [if_pos h]
    refine ⟨he, ?_⟩
    rw [he, List.length_take]
    omega
  · intro h
    unfold truncateEmbedding
    rw [if_neg (by omega)]

/-- C5 witness: a 769-element vector is cut to its first 768 elements and
a one-element vector passes through. -/
theorem truncateEmbedding_spec_witness :
    truncateEmbedding (List.replicate 769 (0 : Rat)) = (List.replicate 769 (0 : Rat)).take 768 ∧
    truncateEmbedding [(1 : Rat)] = [(1 : Rat)] :=
  ⟨((truncateEmbedding_spec _).1 (by rw [List.length_replicate]; omega)).1,
   (truncateEmbedding_spec _).2 (by simp)⟩

/-- C9: a query whose trim is nonempty with at most two
whitespace-separated words is expanded through the generation capability
(called on the trimmed query) and the generated output is returned
trimmed, failures propagating; every other query is returned unchanged,
whatever the capability would do. -/
theorem enhanceQueryWithLLM_spec (llm : Str → Except Unit Str) (query : Str) :
    (((splitWsRuns (jsTrim query)).filter (fun w => decide (0 < w.length))).length ≤ 2 ∧
        0 < (jsTrim query).length →
      enhanceQueryWithLLM llm query = (llm (jsTrim query)).map jsTrim) ∧
    (¬(((splitWsRuns (jsTrim query)).filter (fun w => decide (0 < w.length))).length ≤ 2 ∧
        0 < (jsTrim query).length) →
      enhanceQueryWithLLM llm query = .ok query) := by
  constructor
  · intro h
    unfold enhanceQueryWithLLM
    rw [if_pos (by simp only [Bool.and_eq_true, decide_eq_true_eq]; exact ⟨h.1, h.2⟩)]
  · intro h
    unfold enhanceQueryWithLLM
    rw [if_neg (by simp only [Bool.and_eq_true, decide_eq_true_eq]; exact fun hc => h hc)]

/-- C9 witness: the one-word query ` alien ` is expanded and trimmed; a
three-word query is returned unchanged. -/
theorem enhanceQueryWithLLM_spec_witness :
    enhanceQueryWithLLM (fun s => Except.ok (s ++ chars " creature")) (chars " alien ") =
      Except.ok (chars "alien creature") ∧
    enhanceQueryWithLLM (fun s => Except.ok (s ++ chars " creature")) (chars "one two three") =
      Except.ok (chars "one two three") := by
  constructor
  · rw [(enhanceQueryWithLLM_spec _ _).1 (by decide)]
    rfl
  · exact (enhanceQueryWithLLM_spec _ _).2 (by decide)

/-- C10: in the character branch of the search-result formatting the
duplicated `type` key resolves, by JS object-literal semantics, to its
last value — the literal `character` — so the row's species-type
attribute is never observable in search results. -/
theorem formatSearchRow_type_overwritten (p : EntityRow × Rat)
    (h : p.1.entity_type = chars "character") :
    jsGet (formatSearchRow p) (chars "type") = some (.str (chars "character")) ∧
    ∀ v, jsGet (formatSearchRow p) (chars "type") = some v → v = .str (chars "character") := by
  have h1 : jsGet (formatSearchRow p) (chars "type") = some (.str (chars "character")) := by
    unfold formatSearchRow
    rw [if_pos h, jsGet_mkObj]
    rfl
  refine ⟨h1, fun v hv => ?_⟩
  rw [h1] at hv
  exact (Option.some.inj hv).symm

/-- C10 witness: a concrete character row with species-type `Genius`
surfaces with `type` equal to `character`. -/
theorem formatSearchRow_type_overwritten_witness :
    jsGet (formatSearchRow
      ({ id := 1, entity_type := chars "character", name := chars "Rick Sanchez",
         status := chars "Alive", species := chars "Human", type := chars "Genius",
         gender := chars "Male", image := chars "u", location_name := chars "Earth",
         location_type := [], dimension := [], embedding := some [] }, (0 : Rat)))
      (chars "type") = some (.str (chars "character")) :=
  (formatSearchRow_type_overwritten _ rfl).1


/-- C3 counterexample: a generation output from which exactly one insight
is recoverable yields a one-element result list — no synthesized template
insights are appended and the list does not have five entries. -/
theorem generateCharacterInsights_no_padding :
    generateCharacterInsightsCore (.ok (chars "1. This is one recovered insight about Rick"))
        ⟨chars "Rick", chars "Alive", chars "Human", chars "Earth", chars "Citadel"⟩ =
      [.str (chars "This is one recovered insight about Rick")] ∧
    (generateCharacterInsightsCore (.ok (chars "1. This is one recovered insight about Rick"))
        ⟨chars "Rick", chars "Alive", chars "Human", chars "Earth", chars "Citadel"⟩).length ≠ 5 := by
  have e : generateCharacterInsightsCore
      (.ok (chars "1. This is one recovered insight about Rick"))
      ⟨chars "Rick", chars "Alive", chars "Human", chars "Earth", chars "Citadel"⟩ =
      [.str (chars "This is one recovered insight about Rick")] := rfl
  refine ⟨e, ?_⟩
  rw [e]
  simp

/-- C3 amended: when generation succeeds the result is the first
`min 5 recovered` extracted items — a stable prefix of the extraction in
extraction order with nothing appended, so fewer than five recovered items
yield fewer than five results; the five synthesized template insights are
returned only when the generation call fails, replacing extracted items
entirely. -/
theorem generateCharacterInsights_take_or_fallback (o : Except Unit Str) (c : CharacterData) :
    (∀ t, o = .ok t →
      generateCharacterInsightsCore o c = (parseInsights t).take 5 ∧
      (generateCharacterInsightsCore o c).length = min 5 (parseInsights t).length ∧
      ∃ rest, generateCharacterInsightsCore o c ++ rest = parseInsights t) ∧
    (∀ e, o = .error e →
      generateCharacterInsightsCore o c = (generateFallbackInsights c).map .str ∧
      (generateCharacterInsightsCore o c).length = 5) := by
  constructor
  · intro t hok
    subst hok
    refine ⟨rfl, ?_, ⟨(parseInsights t).drop 5, ?_⟩⟩
    · show ((parseInsights t).take 5).length = _
      rw [List.length_take]
    · show (parseInsights t).take 5 ++ _ = _
      exact List.take_append_drop 5 _
  · intro e herr
    subst herr
    exact ⟨rfl, rfl⟩

/-- C3 witness: two bulleted insights are returned as-is (a two-element
stable prefix), and a failed generation call yields the five templates. -/
theorem generateCharacterInsights_take_or_fallback_witness :
    generateCharacterInsightsCore
        (Except.ok (chars "- First bullet insight goes here\n- Second bullet insight goes here"))
        ⟨chars "Rick", chars "Alive", chars "Human", chars "Earth", chars "Citadel"⟩ =
      [.str (chars "First bullet insight goes here"),
       .str (chars "Second bullet insight goes here")] ∧
    (generateCharacterInsightsCore (Except.error ())
        ⟨chars "Rick", chars "Alive", chars "Human", chars "Earth", chars "Citadel"⟩).length = 5 :=
  ⟨((generateCharacterInsights_take_or_fallback _ _).1 _ rfl).1.trans rfl,
   ((generateCharacterInsights_take_or_fallback _ _).2 () rfl).2⟩

/-- C4 amended: a JSON input matching the compatibility schema round-trips
through the JSON tier exactly — the three returned fields are the parsed
arrays unchanged — provided at least one of the three arrays is non-empty;
with all three empty the code falls through to the text cascade (see the
counterexample). -/
theorem parseCompatibilityAnalysisV1_json_roundtrip (s : Str) (v : JsVal)
    (tw cf bf : List JsVal)
    (hparse : jsonParse (cleanCompatV1 s) = some v)
    (htw : jsGet v (chars "teamWork") = some (.arr tw))
    (hcf : jsGet v (chars "conflicts") = some (.arr cf))
    (hbf : jsGet v (chars "breaksFirst") = some (.arr bf))
    (hstr : (∀ x ∈ tw, ∃ u, x = JsVal.str u) ∧ (∀ x ∈ cf, ∃ u, x = JsVal.str u) ∧
      (∀ x ∈ bf, ∃ u, x = JsVal.str u))
    (hne : tw ≠ [] ∨ cf ≠ [] ∨ bf ≠ []) :
    parseCompatibilityAnalysisV1 s = ⟨tw, cf, bf⟩ := by
  simp only [parseCompatibilityAnalysisV1]
  rw [hparse]
  simp only [htw, hcf, hbf, arrOrEmpty]
  rw [if_pos ?hcond]
  case hcond =>
    rcases hne with h | h | h <;>
      simp [List.isEmpty_iff, h]

/-- C4 witness: the scenario-B input round-trips through the JSON tier. -/
theorem parseCompatibilityAnalysisV1_json_roundtrip_witness :
    parseCompatibilityAnalysisV1
        (chars "\x7b\"teamWork\":[\"a\"],\"conflicts\":[],\"breaksFirst\":[\"b\"]\x7d") =
      ⟨[.str (chars "a")], [], [.str (chars "b")]⟩ :=
  parseCompatibilityAnalysisV1_json_roundtrip _
    (JsVal.obj [(chars "teamWork", .arr [.str (chars "a")]), (chars "conflicts", .arr []),
      (chars "breaksFirst", .arr [.str (chars "b")])])
    [.str (chars "a")] [] [.str (chars "b")] rfl rfl rfl rfl
    ⟨by intro x hx; simp at hx; exact ⟨_, hx⟩,
     by intro x hx; simp at hx,
     by intro x hx; simp at hx; exact ⟨_, hx⟩⟩
    (Or.inl (by simp))

/-- C4 counterexample: the schema-conformant JSON object whose three arrays
are all empty is parsed by the JSON tier, yet the extractor does not
return the parsed (empty) arrays — it falls through to the text cascade
and returns positional-third substrings instead. -/
theorem parseCompatibilityAnalysisV1_json_roundtrip_counterexample :
    jsonParse (cleanCompatV1
        (chars "\x7b\"teamWork\":[],\"conflicts\":[],\"breaksFirst\":[]\x7d")) =
      some (JsVal.obj [(chars "teamWork", .arr []), (chars "conflicts", .arr []),
        (chars "breaksFirst", .arr [])]) ∧
    parseCompatibilityAnalysisV1
        (chars "\x7b\"teamWork\":[],\"conflicts\":[],\"breaksFirst\":[]\x7d") ≠
      ⟨[], [], []⟩ := by
  have e : parseCompatibilityAnalysisV1
      (chars "\x7b\"teamWork\":[],\"conflicts\":[],\"breaksFirst\":[]\x7d") =
      ⟨[.str (chars "\x7b\"teamWork\":[],")], [.str (chars "\"conflicts\":[],")],
       [.str (chars "\"breaksFirst\":[]\x7d")]⟩ := rfl
  refine ⟨rfl, ?_⟩
  rw [e]
  intro hcontra
  have := congrArg CompatRecordV1.teamWork hcontra
  simp at this

/-- C2 counterexample: the character-evaluation variant of
`parseEvaluationResponse` raises a parse error to its caller on non-JSON
generated text, contradicting the never-raise claim. -/
theorem parseEvaluationResponse_throws :
    parseEvaluationResponseCharEval (chars "hello") =
      .error (chars "Failed to parse evaluation response") := rfl

/-- C2 amended: only the insights-service variant of the evaluation
extractor never raises — generated text without an extractable JSON object
yields the complete degraded all-false record — while the character- and
location-evaluation variants throw `Failed to parse evaluation response`
whenever the trimmed text is not valid JSON. -/
theorem parseEvaluationResponse_degraded_or_throws (s : Str) :
    (braceMatch (cleanCompatV1 s) = none →
      parseEvaluationResponsePart003 s = degradedEvalRecord (cleanCompatV1 s)) ∧
    (jsonParse (jsTrim s) = none →
      parseEvaluationResponseCharEval s = .error (chars "Failed to parse evaluation response") ∧
      parseEvaluationResponseLocation s =
        .error (chars "Failed to parse evaluation response")) := by
  constructor
  · intro h
    simp only [parseEvaluationResponsePart003]
    rw [h]
  · intro h
    unfold parseEvaluationResponseCharEval parseEvaluationResponseLocation
    rw [h]
    exact ⟨rfl, rfl⟩

/-- C2 witness: the input `hello` yields the degraded record from the
insights-service variant and a thrown error from the character variant. -/
theorem parseEvaluationResponse_degraded_or_throws_witness :
    parseEvaluationResponsePart003 (chars "hello") = degradedEvalRecord (chars "hello") ∧
    parseEvaluationResponseCharEval (chars "hello there") =
      .error (chars "Failed to parse evaluation response") :=
  ⟨((parseEvaluationResponse_degraded_or_throws (chars "hello")).1 rfl).trans rfl,
   ((parseEvaluationResponse_degraded_or_throws (chars "hello there")).2 rfl).1⟩

/-- C8 counterexample: a present non-boolean check value is not asserted
boolean — the string `yes` leaves the evaluation parser unchanged inside
the record's `checks`, so the record leaves the core with a
non-boolean-typed enumerated field. -/
theorem evalChecks_not_boolean_asserted :
    (match parseEvaluationResponseCharEval
        (chars "\x7b\"checks\":\x7b\"nameMentioned\":\"yes\"\x7d\x7d") with
     | .ok r => jsGet r.checks (chars "nameMentioned")
     | .error _ => none) = some (.str (chars "yes")) ∧
    ∀ b : Bool, JsVal.str (chars "yes") ≠ JsVal.bool b :=
  ⟨rfl, fun _ h => JsVal.noConfusion h⟩

/-- C8 amended: every record leaving the character-evaluation parsers has
all enumerated `checks` and `qualityChecks` fields present, absent fields
defaulting to `false`; the location formatter ensures only
`nameMentioned`, `typeMentioned` and `dimensionMentioned` — absent or
falsy-non-false values become `false` — while its schema's
`totalResidentsMentioned` and all `qualityChecks` fields pass through
unensured.  In both paths `autoScore` defaults to 0 and `explanation` to
the fixed placeholder, and present fields are merely defaulted, never
asserted boolean. -/
theorem evalRecord_defaults (parsed : JsVal) (cs qs : List (Str × JsVal))
    (hnn : parsed ≠ JsVal.null)
    (hcs : orDefault (jsGet parsed (chars "checks")) (.obj []) = .obj cs)
    (hqs : orDefault (jsGet parsed (chars "qualityChecks")) (.obj []) = .obj qs) :
    (∀ k ∈ requiredChecks,
      jsGet (buildEvalResult parsed).checks k = some ((getEntry cs k).getD (.bool false))) ∧
    (∀ k ∈ requiredQualityChecks,
      jsGet (buildEvalResult parsed).qualityChecks k =
        some ((getEntry qs k).getD (.bool false))) ∧
    (buildEvalResult parsed).autoScore = (jsGet parsed (chars "autoScore")).getD (.num 0) ∧
    (buildEvalResult parsed).explanation =
      orDefault (jsGet parsed (chars "explanation")) (.str (chars "No explanation provided")) ∧
    (∀ k ∈ locationEnsuredChecks,
      jsGet (formatEvaluationResult parsed).checks k = some (fixVal (getEntry cs k))) ∧
    (formatEvaluationResult parsed).qualityChecks =
      orDefault (jsGet parsed (chars "qualityChecks")) (.obj []) ∧
    (formatEvaluationResult parsed).autoScore =
      (jsGet parsed (chars "autoScore")).getD (.num 0) ∧
    (formatEvaluationResult parsed).explanation =
      orDefault (jsGet parsed (chars "explanation")) (.str (chars "No explanation provided")) := by
  refine ⟨?_, ?_, rfl, rfl, ?_, rfl, rfl, rfl⟩
  · intro k hk
    show jsGet (ensureKeys requiredChecks
      (orDefault (jsGet parsed (chars "checks")) (.obj []))) k = _
    rw [hcs, jsGet_ensureKeys]
    cases hg : getEntry cs k with
    | some w => rfl
    | none => simp [hk]
  · intro k hk
    show jsGet (ensureKeys requiredQualityChecks
      (orDefault (jsGet parsed (chars "qualityChecks")) (.obj []))) k = _
    rw [hqs, jsGet_ensureKeys]
    cases hg : getEntry qs k with
    | some w => rfl
    | none => simp [hk]
  · intro k hk
    show jsGet (fixCheckKey (chars "dimensionMentioned") (fixCheckKey (chars "typeMentioned")
      (fixCheckKey (chars "nameMentioned")
        (orDefault (jsGet parsed (chars "checks")) (.obj []))))) k = _
    rw [hcs]
    obtain ⟨es1, he1, hg1, hne1⟩ := fixCheckKey_obj cs (chars "nameMentioned")
    rw [he1]
    obtain ⟨es2, he2, hg2, hne2⟩ := fixCheckKey_obj es1 (chars "typeMentioned")
    rw [he2]
    obtain ⟨es3, he3, hg3, hne3⟩ := fixCheckKey_obj es2 (chars "dimensionMentioned")
    rw [he3]
    have hjs : jsGet (JsVal.obj es3) k = getEntry es3 k := rfl
    rw [hjs]
    simp only [locationEnsuredChecks, List.mem_cons, List.not_mem_nil, or_false] at hk
    rcases hk with rfl | rfl | rfl
    · rw [hne3 _ (by decide), hne2 _ (by decide), hg1]
    · rw [hne3 _ (by decide), hg2, hne1 _ (by decide)]
    · rw [hg3, hne2 _ (by decide), hne1 _ (by decide)]

/-- C8 witness: with `checks` absent and `autoScore` 5, the enumerated
field `nameMentioned` leaves the character parser as `false` and
`autoScore` is kept; the location formatter likewise surfaces
`dimensionMentioned` as `false`. -/
theorem evalRecord_defaults_witness :
    jsGet (buildEvalResult (JsVal.obj [(chars "autoScore", .num 5)])).checks
      (chars "nameMentioned") = some (.bool false) ∧
    (buildEvalResult (JsVal.obj [(chars "autoScore", .num 5)])).autoScore = .num 5 ∧
    jsGet (formatEvaluationResult (JsVal.obj [(chars "autoScore", .num 5)])).checks
      (chars "dimensionMentioned") = some (.bool false) := by
  have h := evalRecord_defaults (JsVal.obj [(chars "autoScore", .num 5)]) [] []
    (fun hh => JsVal.noConfusion hh) rfl rfl
  exact ⟨(h.1 _ (by simp [requiredChecks])).trans rfl, h.2.2.1.trans rfl,
    (h.2.2.2.2.1 _ (by simp [locationEnsuredChecks])).trans rfl⟩

/-- C6: for a fixed distance operator, query embedding, limit and table
state, `semanticSearch` returns at most `limit` results, ranked by
non-decreasing distance over characters and locations together: the
selected rows extend, by some remainder, to a permutation of all embedded
rows of the unified table, and every unselected row is at least as distant
as every selected one. -/
theorem semanticSearch_ranking (dist : List Rat → List Rat → Rat) (q : List Rat) (lim : Nat)
    (table : List EntityRow) :
    (semanticSearchResults dist q lim table).length ≤ lim ∧
    List.Sorted rowLE (rankRows dist q lim table) ∧
    semanticSearchResults dist q lim table = (rankRows dist q lim table).map formatSearchRow ∧
    ∃ rest, (rankRows dist q lim table ++ rest).Perm (rowsWithDistance dist q table) ∧
      ∀ x ∈ rankRows dist q lim table, ∀ y ∈ rest, x.2 ≤ y.2 := by
  have hsor : List.Sorted rowLE ((rowsWithDistance dist q table).insertionSort rowLE) :=
    List.sorted_insertionSort rowLE _
  have hperm := List.perm_insertionSort rowLE (rowsWithDistance dist q table)
  have hsplit : rankRows dist q lim table ++
      ((rowsWithDistance dist q table).insertionSort rowLE).drop lim =
      (rowsWithDistance dist q table).insertionSort rowLE := by
    unfold rankRows
    exact List.take_append_drop lim _
  refine ⟨?_, ?_, rfl,
    ⟨((rowsWithDistance dist q table).insertionSort rowLE).drop lim, ?_, ?_⟩⟩
  · show ((rankRows dist q lim table).map formatSearchRow).length ≤ lim
    rw [List.length_map]
    unfold rankRows
    rw [List.length_take]
    omega
  · unfold rankRows
    exact List.Pairwise.sublist (List.take_sublist _ _) hsor
  · rw [hsplit]
    exact hperm
  · intro x hx y hy
    rw [← hsplit] at hsor
    exact (List.pairwise_append.mp hsor).2.2 x hx y hy


/-- C6 witness: a two-row table holding one character and one location,
ranked under a constant distance operator, yields at most six results. -/
theorem semanticSearch_ranking_witness :
    (semanticSearchResults (fun _ _ => 0) [] 6
      [{ id := 1, entity_type := chars "character", name := chars "Rick", status := chars "Alive",
         species := chars "Human", type := [], gender := chars "Male", image := [],
         location_name := [], location_type := [], dimension := [], embedding := some [] },
       { id := 1, entity_type := chars "location", name := chars "Earth", status := [],
         species := [], type := [], gender := [], image := [], location_name := [],
         location_type := chars "Planet", dimension := chars "C-137",
         embedding := some [] }]).length ≤ 6 :=
  (semanticSearch_ranking _ _ _ _).1

end RM
